import Mathlib

/-!
Shallow embedding of the semantic-locator resolution engine of
`sapscriptwizard` (files `element_finder.py` and `locator_helpers.py`).

Pure geometry, the element cache, the locator grammar, and the
resolver are translated function-by-function from the Python source.
The COM transport (active-window access and the breadth-first tree
walk) is abstracted as an explicit environment value: a `WindowQuery`
either yields the active window id together with the list of raw
nodes the traversal visits, or fails, matching the single `try` block
in `_check_and_refresh_cache`.
-/

namespace SapScript

/-- `Position` from `locator_helpers.py`: screen rectangle with
precomputed `right`, `bottom`, `center_x`, `center_y`. -/
structure Position where
  left : Int
  top : Int
  width : Int
  height : Int
deriving DecidableEq, Repr

def Position.right (p : Position) : Int := p.left + p.width

def Position.bottom (p : Position) : Int := p.top + p.height

/-- `center_x = left + width // 2` (Python floor division). -/
def Position.center_x (p : Position) : Int := p.left + Int.fdiv p.width 2

/-- `center_y = top + height // 2` (Python floor division). -/
def Position.center_y (p : Position) : Int := p.top + Int.fdiv p.height 2

/-- `is_horizontally_aligned_with`: centers aligned on the y axis. -/
def Position.is_horizontally_aligned_with (p other : Position)
    (tolerance : Int := 5) : Bool :=
  decide (|p.center_y - other.center_y| ≤ tolerance)

/-- `is_vertically_aligned_with`: centers aligned on the x axis. -/
def Position.is_vertically_aligned_with (p other : Position)
    (tolerance : Int := 8) : Bool :=
  decide (|p.center_x - other.center_x| ≤ tolerance)

/-- `is_right_of`: `0 ≤ p.left - other.right ≤ gap_tolerance`. -/
def Position.is_right_of (p other : Position) (gap_tolerance : Int := 25) : Bool :=
  let distance := p.left - other.right
  decide (0 ≤ distance) && decide (distance ≤ gap_tolerance)

/-- `is_below`: `0 ≤ p.top - other.bottom ≤ gap_tolerance`. -/
def Position.is_below (p other : Position) (gap_tolerance : Int := 25) : Bool :=
  let distance := p.top - other.bottom
  decide (0 ≤ distance) && decide (distance ≤ gap_tolerance)

/-- `distance_squared_to`: squared distance between centers. -/
def Position.distance_squared_to (p other : Position) : Int :=
  let dx := p.center_x - other.center_x
  let dy := p.center_y - other.center_y
  dx * dx + dy * dy

/-- `ElementInfo` from `locator_helpers.py`. -/
structure ElementInfo where
  element_id : String
  element_type : String
  text : Option String
  tooltip : Option String
  position : Position
  name : Option String := none
  changeable : Option Bool := none
deriving DecidableEq, Repr

/-- The element cache `Dict[str, List[ElementInfo]]`, modelled as an
insertion-ordered association list (Python dicts preserve insertion
order; new keys go to the back). -/
abbrev Cache := List (String × List ElementInfo)

/-- `self._element_cache.get(t, [])`. -/
def cacheGet (c : Cache) (t : String) : List ElementInfo :=
  match (List.find? (fun p => p.1 == t) c) with
  | some p => p.2
  | none => []

/-- The insertion step of `_scan_window_elements` (lines 119-121):
create the bucket on first use, then append. -/
def cacheInsert (c : Cache) (t : String) (e : ElementInfo) : Cache :=
  if List.any c (fun p => p.1 == t) then
    List.map (fun p => if p.1 == t then (p.1, p.2 ++ [e]) else p) c
  else c ++ [(t, [e])]

/-- One node visited by the breadth-first walk, with the properties the
scan reads; each property is `Option`al because any single property
read may fail (recorded as absent). A node without a complete bounding
box has `pos = none` and is skipped. -/
structure RawNode where
  id : String
  type : String
  text : Option String := none
  tooltip : Option String := none
  name : Option String := none
  changeable : Option Bool := none
  pos : Option Position := none
deriving DecidableEq, Repr

/-- The per-node body of the scan loop: skip ids already processed,
and insert into the cache only when a position was obtained. -/
def scanStep (acc : Cache × List String) (n : RawNode) : Cache × List String :=
  if List.contains acc.2 n.id then acc
  else
    match n.pos with
    | none => (acc.1, n.id :: acc.2)
    | some p =>
        (cacheInsert acc.1 n.type
          { element_id := n.id, element_type := n.type, text := n.text,
            tooltip := n.tooltip, position := p, name := n.name,
            changeable := n.changeable },
         n.id :: acc.2)

/-- `_scan_window_elements`, abstracted over the visit order of the
breadth-first traversal: given the raw nodes in visit order, rebuild
the cache from empty. -/
def scanWindowElements (nodes : List RawNode) : Cache :=
  (List.foldl scanStep (([] : Cache), ([] : List String)) nodes).1

/-- The mutable state of a `SapElementFinder`. -/
structure FinderState where
  element_cache : Cache
  cache_window_id : Option String
deriving DecidableEq, Repr

/-- The state of a fresh finder: empty cache, sentinel generation. -/
def initialState : FinderState :=
  { element_cache := [], cache_window_id := none }

/-- `_clear_cache`. -/
def clearCache (_st : FinderState) : FinderState :=
  { element_cache := [], cache_window_id := none }

/-- `exceptions.SapGuiComException` raised by `_check_and_refresh_cache`:
the message is the formatted string, `cause` the original error
(`raise ... from e`). -/
structure SapGuiComException where
  message : String
  cause : String
deriving DecidableEq, Repr

/-- The environment of one `_check_and_refresh_cache` call: either the
active window id and the nodes a scan of it would visit, or the error
raised while accessing `ActiveWindow`. -/
inductive WindowQuery
  | ok (wid : String) (nodes : List RawNode)
  | fail (err : String)
deriving DecidableEq, Repr

/-- Outcome of `_check_and_refresh_cache`: the new state, the raised
exception if any, and whether a scan ran. -/
structure RefreshOutcome where
  state : FinderState
  error : Option SapGuiComException
  scanned : Bool
deriving DecidableEq, Repr

/-- `_check_and_refresh_cache`: rescan iff the active window id differs
from the cached one; on transport failure clear the cache and raise. -/
def checkAndRefreshCache (st : FinderState) (q : WindowQuery) : RefreshOutcome :=
  match q with
  | .fail err =>
      { state := clearCache st,
        error := some { message := "Error accessing ActiveWindow: " ++ err,
                        cause := err },
        scanned := false }
  | .ok wid nodes =>
      if st.cache_window_id == some wid then
        { state := st, error := none, scanned := false }
      else
        { state := { element_cache := scanWindowElements nodes,
                     cache_window_id := some wid },
          error := none, scanned := true }

/-! ### The locator grammar (`_parse_locator`) -/

/-- The whitespace characters stripped by Python's `str.strip()`. -/
def pyIsSpace (c : Char) : Bool :=
  c == ' ' || c == '\t' || c == '\n' || c == '\r' ||
  c.val == 11 || c.val == 12

/-- Strip characters satisfying `f` from both ends of a character list
(the list form of Python's `str.strip(chars)`). -/
def stripList (f : Char → Bool) (l : List Char) : List Char :=
  List.reverse (List.dropWhile f (List.reverse (List.dropWhile f l)))

/-- Python `s.strip()`. -/
def pyStrip (s : String) : String :=
  String.mk (stripList pyIsSpace s.toList)

/-- Python `s.isdigit()` restricted to ASCII decimal digits: nonempty
and all characters are digits. -/
def isDigitChars (l : List Char) : Bool :=
  !l.isEmpty && l.all (fun c => decide ('0' ≤ c) && decide (c ≤ '9'))

/-- Split a character list at the first occurrence of `sub` (Python
`s.split(sub, 1)` when `sub in s`); `none` when `sub` never occurs. -/
def splitFirstAux (sub : List Char) : List Char → Option (List Char × List Char)
  | [] => if List.isEmpty sub then some ([], []) else none
  | c :: rest =>
    if List.isPrefixOf sub (c :: rest) then
      some ([], List.drop sub.length (c :: rest))
    else
      match splitFirstAux sub rest with
      | some (pre, post) => some (c :: pre, post)
      | none => none

/-- `LocatorStrategy` and its five concrete subclasses from
`locator_helpers.py`, as one inductive. -/
inductive LocatorStrategy
  | content (value : String)
  | hLabel (label : String)
  | vLabel (label : String)
  | hLabelVLabel (h_label v_label : String)
  | hLabelHLabel (left_label right_label : String)
deriving DecidableEq, Repr

/-- What `_parse_locator` does: return a strategy, raise `ValueError`
(a malformed locator), or raise `NotImplementedError` (a recognized but
unsupported index-based locator). -/
inductive ParseOutcome
  | ok (strategy : LocatorStrategy)
  | valueError (msg : String)
  | notImplementedError (msg : String)
deriving DecidableEq, Repr

/-- `_parse_locator` (element_finder.py lines 148-200), working on the
character list of the trimmed input. -/
def parseLocator (locator_str0 : String) : ParseOutcome :=
  let cs := stripList pyIsSpace locator_str0.toList
  if List.isPrefixOf ['='] cs then
    ParseOutcome.ok (LocatorStrategy.content
      (String.mk (stripList pyIsSpace (List.drop 1 cs))))
  else
    match splitFirstAux ['>', '>'] cs with
    | some (l0, r0) =>
        let l := stripList pyIsSpace l0
        let r := stripList pyIsSpace r0
        if !l.isEmpty && !r.isEmpty then
          ParseOutcome.ok (LocatorStrategy.hLabelHLabel (String.mk l) (String.mk r))
        else
          ParseOutcome.valueError "Invalid HLabelHLabel locator format"
    | none =>
    match splitFirstAux ['@'] cs with
    | some (l0, r0) =>
        let left := stripList pyIsSpace l0
        let right := stripList pyIsSpace r0
        if left.isEmpty && !right.isEmpty then
          ParseOutcome.ok (LocatorStrategy.vLabel (String.mk right))
        else if !left.isEmpty && !right.isEmpty then
          let left_is_index := isDigitChars left
          let right_is_index := isDigitChars right
          if left_is_index && !right_is_index then
            ParseOutcome.notImplementedError "HIndexVLabelLocator (index @ label) is not implemented yet."
          else if !left_is_index && right_is_index then
            ParseOutcome.notImplementedError "HLabelVIndexLocator (label @ index) is not implemented yet."
          else if !left_is_index && !right_is_index then
            ParseOutcome.ok (LocatorStrategy.hLabelVLabel
              (String.mk (stripList (fun c => c == '"') left))
              (String.mk (stripList (fun c => c == '"') right)))
          else
            ParseOutcome.valueError "Invalid locator format with at"
        else
          ParseOutcome.valueError "Invalid locator format with at"
    | none =>
      if !cs.isEmpty then
        ParseOutcome.ok (LocatorStrategy.hLabel (String.mk cs))
      else
        ParseOutcome.valueError "Could not parse locator"

/-- `True` when `_parse_locator` raises `ValueError` (a parse error). -/
def ParseOutcome.isParseErr : ParseOutcome → Bool
  | .valueError _ => true
  | _ => false

/-- `True` when `_parse_locator` raises `NotImplementedError`
(an unsupported index-based locator). -/
def ParseOutcome.isUnsupported : ParseOutcome → Bool
  | .notImplementedError _ => true
  | _ => false

/-! ### The resolver (`find_element` and its helpers) -/

/-- `DEFAULT_TARGET_TYPES` from element_finder.py. -/
def DEFAULT_TARGET_TYPES : List String :=
  ["GuiTextField", "GuiCTextField", "GuiPasswordField", "GuiComboBox",
   "GuiCheckBox", "GuiRadioButton", "GuiButton", "GuiTab"]

/-- `LABEL_ELEMENT_TYPES` from element_finder.py. -/
def LABEL_ELEMENT_TYPES : List String :=
  ["GuiLabel", "GuiTextField", "GuiCTextField"]

/-- The loop of `_find_label_element`: return the first element whose
`text` equals the label text. -/
def findLabelLoop (label_text : String) : List ElementInfo → Option ElementInfo
  | [] => none
  | l :: rest =>
    if l.text == some label_text then some l else findLabelLoop label_text rest

/-- The candidate list `_find_label_element` builds: the cache buckets
of the label types, concatenated in `LABEL_ELEMENT_TYPES` order. -/
def labelCandidates (cache : Cache) : List ElementInfo :=
  List.foldl (fun acc t => acc ++ cacheGet cache t) [] LABEL_ELEMENT_TYPES

/-- `_find_label_element`. -/
def findLabelElement (cache : Cache) (label_text : String) : Option ElementInfo :=
  findLabelLoop label_text (labelCandidates cache)

/-- `[item for sublist in self._element_cache.values() for item in sublist]`. -/
def allCachedElements (cache : Cache) : List ElementInfo :=
  List.foldl (fun acc p => acc ++ p.2) [] cache

/-- The candidate collection of `find_element` (lines 248-250): extend
with the cache bucket of each effective target type, in order. -/
def candidatesFor (cache : Cache) (effective_target_types : List String) :
    List ElementInfo :=
  List.foldl (fun acc t => acc ++ cacheGet cache t) [] effective_target_types

/-- The `ContentLocator` loop (lines 263-270): for each element in
order, check `text` then `tooltip`, stopping at the first hit. -/
def contentScan (value : String) : List ElementInfo → Option ElementInfo
  | [] => none
  | e :: rest =>
    if e.text == some value then some e
    else if e.tooltip == some value then some e
    else contentScan value rest

/-- The `ContentLocator` strategy over the whole cache. -/
def resolveContent (cache : Cache) (value : String) : Option ElementInfo :=
  contentScan value (allCachedElements cache)

/-- The accumulator step shared by the `HLabel`/`VLabel` nearest loops:
`min_dist` starts at infinity, a candidate wins on a strictly smaller
key, so ties keep the earlier candidate. -/
def closestStep (pred : ElementInfo → Bool) (key : ElementInfo → Int)
    (acc : Option (ElementInfo × Int)) (t : ElementInfo) :
    Option (ElementInfo × Int) :=
  if pred t then
    match acc with
    | none => some (t, key t)
    | some (b, m) => if key t < m then some (t, key t) else some (b, m)
  else acc

/-- The `closest_right`/`closest_below` selection loop. -/
def closestBy (pred : ElementInfo → Bool) (key : ElementInfo → Int)
    (cands : List ElementInfo) : Option ElementInfo :=
  Option.map Prod.fst (List.foldl (closestStep pred key) none cands)

/-- The `HLabel` candidate filter: horizontally aligned with and right
of the label element. -/
def hCandidate (lab : ElementInfo) (t : ElementInfo) : Bool :=
  t.position.is_horizontally_aligned_with lab.position 5 &&
  t.position.is_right_of lab.position 25

/-- The `HLabel` distance key: `target.left - label.right`. -/
def hDist (lab : ElementInfo) (t : ElementInfo) : Int :=
  t.position.left - lab.position.right

/-- The `HLabelLocator` strategy (lines 272-287). -/
def resolveHLabel (cache : Cache) (cands : List ElementInfo) (label : String) :
    Option ElementInfo :=
  match findLabelElement cache label with
  | none => none
  | some lab => closestBy (hCandidate lab) (hDist lab) cands

/-- The `VLabel` candidate filter: vertically aligned with and below
the label element. -/
def vCandidate (lab : ElementInfo) (t : ElementInfo) : Bool :=
  t.position.is_vertically_aligned_with lab.position 8 &&
  t.position.is_below lab.position 25

/-- The `VLabel` distance key: `target.top - label.bottom`. -/
def vDist (lab : ElementInfo) (t : ElementInfo) : Int :=
  t.position.top - lab.position.bottom

/-- The `VLabelLocator` strategy (lines 289-304). -/
def resolveVLabel (cache : Cache) (cands : List ElementInfo) (label : String) :
    Option ElementInfo :=
  match findLabelElement cache label with
  | none => none
  | some lab => closestBy (vCandidate lab) (vDist lab) cands

/-- The `HLabelVLabel` candidate filter: aligned with both labels and
inside the quadrant right of the h-label and below the v-label. -/
def hvCandidate (hl vl : ElementInfo) (t : ElementInfo) : Bool :=
  t.position.is_horizontally_aligned_with hl.position 5 &&
  t.position.is_vertically_aligned_with vl.position 8 &&
  decide (hl.position.right ≤ t.position.left) &&
  decide (vl.position.bottom ≤ t.position.top)

/-- The `HLabelVLabelLocator` strategy (lines 306-329). -/
def resolveHLabelVLabel (cache : Cache) (cands : List ElementInfo)
    (h_label v_label : String) : Option ElementInfo :=
  match findLabelElement cache h_label, findLabelElement cache v_label with
  | some hl, some vl =>
      let cross : Position :=
        { left := hl.position.right, top := vl.position.bottom,
          width := 1, height := 1 }
      closestBy (hvCandidate hl vl)
        (fun t => t.position.distance_squared_to cross) cands
  | _, _ => none

/-- Python `min(list, key=k)`: the first element attaining the minimal
key (ties keep the earlier element, matching CPython `min`). -/
def minByFirst (key : ElementInfo → Int) : List ElementInfo → Option ElementInfo
  | [] => none
  | e :: rest =>
    match minByFirst key rest with
    | none => some e
    | some f => if key f < key e then some f else some e

/-- The `HLabelHLabelLocator` strategy (lines 331-347). -/
def resolveHLabelHLabel (cache : Cache) (cands : List ElementInfo)
    (left_label right_label : String) : Option ElementInfo :=
  let left_elem :=
    match findLabelElement cache left_label with
    | some le => some le
    | none => List.find? (fun el => el.text == some left_label) cands
  match left_elem with
  | none => none
  | some le =>
      let possible := List.filter (fun el =>
        (el.text == some right_label || el.tooltip == some right_label) &&
        el.position.is_horizontally_aligned_with le.position 5 &&
        el.position.is_right_of le.position 25) cands
      minByFirst (fun el => el.position.left - le.position.right) possible

/-- Dispatch on the parsed strategy (the `isinstance` chain). -/
def dispatchStrategy (cache : Cache) (cands : List ElementInfo) :
    LocatorStrategy → Option ElementInfo
  | .content v => resolveContent cache v
  | .hLabel l => resolveHLabel cache cands l
  | .vLabel l => resolveVLabel cache cands l
  | .hLabelVLabel h v => resolveHLabelVLabel cache cands h v
  | .hLabelHLabel a b => resolveHLabelHLabel cache cands a b

/-- What `find_element` logs on its internally-caught negative paths;
`ParseOutcome.valueError` and `ParseOutcome.notImplementedError` stay
distinguishable here even though both return `None`. -/
inductive LogEvent
  | emptyCache
  | parseErrorKind (msg : String)
  | unsupportedKind (msg : String)
  | noCandidates
deriving DecidableEq, Repr

/-- How one `find_element` call ends: an exception propagated to the
caller, or a normal return of an optional element id. -/
inductive CallResult
  | raised (e : SapGuiComException)
  | returned (r : Option String)
deriving DecidableEq, Repr

/-- The observable outcome of one `find_element` call. -/
structure FindOutcome where
  state : FinderState
  call : CallResult
  log : List LogEvent
  scanned : Bool
deriving DecidableEq, Repr

/-- `find_element` (lines 219-358): refresh the cache (propagating a
transport failure), bail out on an empty cache, parse the locator
(converting `ValueError`/`NotImplementedError` into `None`), collect
the typed candidates, bail out when there are none, then dispatch. -/
def findElementCore (st : FinderState) (q : WindowQuery) (locator_str : String)
    (target_element_types : Option (List String)) : FindOutcome :=
  let r := checkAndRefreshCache st q
  match r.error with
  | some e =>
      { state := r.state, call := .raised e, log := [], scanned := r.scanned }
  | none =>
    let st1 := r.state
    if st1.element_cache.isEmpty then
      { state := st1, call := .returned none, log := [.emptyCache],
        scanned := r.scanned }
    else
      match parseLocator locator_str with
      | .valueError m =>
          { state := st1, call := .returned none,
            log := [.parseErrorKind m], scanned := r.scanned }
      | .notImplementedError m =>
          { state := st1, call := .returned none,
            log := [.unsupportedKind m], scanned := r.scanned }
      | .ok strategy =>
        let effective := target_element_types.getD DEFAULT_TARGET_TYPES
        let cands := candidatesFor st1.element_cache effective
        if cands.isEmpty then
          { state := st1, call := .returned none, log := [.noCandidates],
            scanned := r.scanned }
        else
          { state := st1,
            call := .returned (Option.map ElementInfo.element_id
              (dispatchStrategy st1.element_cache cands strategy)),
            log := [], scanned := r.scanned }

/-! ### Helper lemmas -/

lemma dropWhile_dropWhile_self (f : Char → Bool) (l : List Char) :
    List.dropWhile f (List.dropWhile f l) = List.dropWhile f l := by
  induction l with
  | nil => rfl
  | cons a l ih =>
    by_cases h : f a
    · simpa [List.dropWhile, h] using ih
    · simp [List.dropWhile, h]

lemma dropWhile_head?_not (f : Char → Bool) (l : List Char) (x : Char)
    (h : (List.dropWhile f l).head? = some x) : f x = false := by
  induction l with
  | nil => simp [List.dropWhile] at h
  | cons a l ih =>
    by_cases ha : f a
    · exact ih (by simpa [List.dropWhile, ha] using h)
    · simp only [List.dropWhile, ha, List.head?] at h
      cases h
      simpa using ha

lemma dropWhile_eq_self_of_head (f : Char → Bool) (l : List Char)
    (h : ∀ x, l.head? = some x → f x = false) : List.dropWhile f l = l := by
  cases l with
  | nil => rfl
  | cons a l =>
    have := h a rfl
    simp [List.dropWhile, this]

lemma dropWhile_getLast? (f : Char → Bool) (l : List Char)
    (h : List.dropWhile f l ≠ []) :
    (List.dropWhile f l).getLast? = l.getLast? := by
  induction l with
  | nil => simp [List.dropWhile] at h
  | cons a l ih =>
    by_cases ha : f a
    · have hne : List.dropWhile f l ≠ [] := by
        simpa [List.dropWhile, ha] using h
      have hl : l ≠ [] := by
        intro hnil; exact hne (by simp [hnil, List.dropWhile])
      rw [List.dropWhile_cons_of_pos ha, ih hne]
      cases l with
      | nil => exact absurd rfl hl
      | cons b m => simp [List.getLast?_cons_cons]
    · simp [List.dropWhile, ha]

lemma stripList_idem (f : Char → Bool) (l : List Char) :
    stripList f (stripList f l) = stripList f l := by
  unfold stripList
  by_cases hBnil :
      List.dropWhile f (List.reverse (List.dropWhile f l)) = []
  · simp [hBnil]
  · have hhead : ∀ x,
        (List.reverse (List.dropWhile f (List.reverse (List.dropWhile f l)))).head?
          = some x → f x = false := by
      intro x hx
      rw [List.head?_reverse, dropWhile_getLast? f _ hBnil,
        List.getLast?_reverse] at hx
      exact dropWhile_head?_not f l x hx
    rw [dropWhile_eq_self_of_head f _ hhead, List.reverse_reverse,
      dropWhile_dropWhile_self]

lemma pyStrip_toList (s : String) :
    (pyStrip s).toList = stripList pyIsSpace s.toList := rfl

/-- `_parse_locator` depends only on the trimmed input. -/
lemma parseLocator_pyStrip (s : String) :
    parseLocator (pyStrip s) = parseLocator s := by
  unfold parseLocator
  rw [pyStrip_toList, stripList_idem]

/-- The `ContentLocator` loop returns the first element whose text or
tooltip equals the value. -/
lemma contentScan_eq_find? (v : String) (l : List ElementInfo) :
    contentScan v l
      = List.find? (fun e => e.text == some v || e.tooltip == some v) l := by
  induction l with
  | nil => rfl
  | cons e rest ih =>
    by_cases ht : e.text == some v
    · simp [contentScan, List.find?, ht]
    · by_cases hp : e.tooltip == some v
      · simp [contentScan, List.find?, ht, hp]
      · simp only [contentScan, List.find?, ht, hp]
        simpa [ht, hp] using ih

/-- The `_find_label_element` loop returns the first label candidate
with matching text. -/
lemma findLabelLoop_eq_find? (t : String) (l : List ElementInfo) :
    findLabelLoop t l = List.find? (fun e => e.text == some t) l := by
  induction l with
  | nil => rfl
  | cons e rest ih =>
    by_cases h : e.text == some t
    · simp [findLabelLoop, List.find?, h]
    · simp only [findLabelLoop, List.find?, h]
      simpa [h] using ih

/-- Reference selection function: the running best of the nearest-loop,
starting from `b`; a later candidate replaces the best only on a
strictly smaller key. -/
def selectFrom (key : ElementInfo → Int) (b : ElementInfo) :
    List ElementInfo → ElementInfo
  | [] => b
  | e :: rest =>
    if key e < key b then selectFrom key e rest else selectFrom key b rest

lemma foldl_closestStep_filter (pred : ElementInfo → Bool)
    (key : ElementInfo → Int) (l : List ElementInfo)
    (acc : Option (ElementInfo × Int)) :
    List.foldl (closestStep pred key) acc l
      = List.foldl (closestStep (fun _ => true) key) acc (List.filter pred l) := by
  induction l generalizing acc with
  | nil => rfl
  | cons a l ih =>
    by_cases h : pred a
    · have hstep : closestStep pred key acc a
          = closestStep (fun _ => true) key acc a := by
        simp [closestStep, h]
      simp only [List.foldl_cons, List.filter_cons, h, hstep]
      exact ih _
    · have hstep : closestStep pred key acc a = acc := by
        simp [closestStep, h]
      simp only [List.foldl_cons, List.filter_cons, h, hstep]
      simpa using ih acc

lemma foldl_min_some (key : ElementInfo → Int) (l : List ElementInfo) :
    ∀ b, List.foldl (closestStep (fun _ => true) key) (some (b, key b)) l
      = some (selectFrom key b l, key (selectFrom key b l)) := by
  induction l with
  | nil => intro b; rfl
  | cons e rest ih =>
    intro b
    by_cases h : key e < key b
    · simp only [List.foldl_cons, closestStep, if_pos trivial, h, if_true,
        selectFrom]
      simpa [h] using ih e
    · simp only [List.foldl_cons, closestStep, selectFrom]
      simpa [h] using ih b

lemma closestBy_of_filter_cons (pred : ElementInfo → Bool)
    (key : ElementInfo → Int) (l : List ElementInfo) (b : ElementInfo)
    (rest : List ElementInfo) (h : List.filter pred l = b :: rest) :
    closestBy pred key l = some (selectFrom key b rest) := by
  unfold closestBy
  rw [foldl_closestStep_filter, h]
  have hstep : closestStep (fun _ => true) key none b = some (b, key b) := by
    simp [closestStep]
  rw [List.foldl_cons, hstep, foldl_min_some]
  rfl

lemma closestBy_none_iff (pred : ElementInfo → Bool)
    (key : ElementInfo → Int) (l : List ElementInfo) :
    closestBy pred key l = none ↔ List.filter pred l = [] := by
  constructor
  · intro h
    cases hf : List.filter pred l with
    | nil => rfl
    | cons b rest =>
      rw [closestBy_of_filter_cons pred key l b rest hf] at h
      cases h
  · intro h
    unfold closestBy
    rw [foldl_closestStep_filter, h]
    rfl

lemma selectFrom_mem (key : ElementInfo → Int) (l : List ElementInfo) :
    ∀ b, selectFrom key b l ∈ b :: l := by
  induction l with
  | nil => intro b; simp [selectFrom]
  | cons e rest ih =>
    intro b
    by_cases h : key e < key b
    · have := ih e
      simp only [selectFrom, h, if_true]
      simp only [List.mem_cons] at this ⊢
      tauto
    · have := ih b
      simp only [selectFrom, h, if_false]
      simp only [List.mem_cons] at this ⊢
      tauto

lemma selectFrom_le (key : ElementInfo → Int) (l : List ElementInfo) :
    ∀ b, ∀ x ∈ b :: l, key (selectFrom key b l) ≤ key x := by
  induction l with
  | nil =>
    intro b x hx
    simp only [List.mem_cons, List.not_mem_nil, or_false] at hx
    subst hx
    simp [selectFrom]
  | cons e rest ih =>
    intro b x hx
    by_cases h : key e < key b
    · simp only [selectFrom, h, if_true]
      rcases List.mem_cons.mp hx with hxb | hx2
      · subst hxb
        exact le_trans (ih e e (List.mem_cons_self e rest)) (le_of_lt h)
      · exact ih e x hx2
    · simp only [selectFrom, h, if_false]
      rcases List.mem_cons.mp hx with hxb | hx2
      · subst hxb
        exact ih x x (List.mem_cons_self x rest)
      · rcases List.mem_cons.mp hx2 with hxe | hx3
        · subst hxe
          exact le_trans (ih b b (List.mem_cons_self b rest)) (le_of_not_lt h)
        · exact ih b x (List.mem_cons_of_mem b hx3)

lemma selectFrom_split (key : ElementInfo → Int) (l : List ElementInfo) :
    ∀ b, ∃ pre post, b :: l = pre ++ selectFrom key b l :: post ∧
      ∀ x ∈ pre, key (selectFrom key b l) < key x := by
  induction l with
  | nil => intro b; exact ⟨[], [], rfl, by simp⟩
  | cons e rest ih =>
    intro b
    by_cases h : key e < key b
    · obtain ⟨pre, post, heq, hlt⟩ := ih e
      refine ⟨b :: pre, post, ?_, ?_⟩
      · simp only [selectFrom, h, if_true, List.cons_append]
        rw [← heq]
      · intro x hx
        simp only [selectFrom, h, if_true]
        rcases List.mem_cons.mp hx with rfl | hx2
        · exact lt_of_le_of_lt
            (selectFrom_le key rest e e (List.mem_cons_self e rest)) h
        · exact hlt x hx2
    · obtain ⟨pre, post, heq, hlt⟩ := ih b
      cases pre with
      | nil =>
        simp only [List.nil_append] at heq
        refine ⟨[], e :: rest, ?_, by simp⟩
        have hb : b = selectFrom key b rest := by
          injection heq with h1 _
        simp only [selectFrom, h, if_false, List.nil_append]
        rw [← hb]
      | cons p pre2 =>
        simp only [List.cons_append] at heq
        have hp : p = b := by injection heq with h1 _; exact h1.symm
        have hrest : rest = pre2 ++ selectFrom key b rest :: post := by
          injection heq
        refine ⟨b :: e :: pre2, post, ?_, ?_⟩
        · simp only [selectFrom, h, if_false, List.cons_append]
          rw [← hrest]
        · intro x hx
          have hbin : key (selectFrom key b rest) < key b := by
            have := hlt p (List.mem_cons_self p pre2)
            rwa [hp] at this
          simp only [selectFrom, h, if_false]
          rcases List.mem_cons.mp hx with rfl | hx2
          · exact hbin
          · rcases List.mem_cons.mp hx2 with rfl | hx3
            · exact lt_of_lt_of_le hbin (le_of_not_lt h)
            · exact hlt x (List.mem_cons_of_mem p hx3)

/-! ### Cache well-formedness -/

/-- The cache partition invariant: bucket keys are distinct, and every
element sits in the bucket keyed by its own `element_type`. -/
def CacheWF (c : Cache) : Prop :=
  (List.map Prod.fst c).Nodup ∧ ∀ p ∈ c, ∀ e ∈ p.2, e.element_type = p.1

lemma cacheInsert_wf (c : Cache) (t : String) (e : ElementInfo)
    (hw : CacheWF c) (he : e.element_type = t) : CacheWF (cacheInsert c t e) := by
  unfold cacheInsert
  by_cases hany : List.any c (fun p => p.1 == t) = true
  · simp only [hany, if_true]
    constructor
    · have hkeys : List.map Prod.fst
          (List.map (fun p => if p.1 == t then (p.1, p.2 ++ [e]) else p) c)
            = List.map Prod.fst c := by
        rw [List.map_map]
        apply List.map_congr_left
        intro p _
        by_cases hb : p.1 = t
        · subst hb; simp
        · simp [hb]
      rw [hkeys]
      exact hw.1
    · intro p hp e' he'
      obtain ⟨p0, hp0, hpeq⟩ := List.mem_map.mp hp
      by_cases hb : p0.1 == t
      · rw [if_pos hb] at hpeq
        subst hpeq
        simp only at he' ⊢
        rcases List.mem_append.mp he' with h1 | h1
        · exact hw.2 p0 hp0 e' h1
        · have : e' = e := by simpa using h1
          subst this
          rw [he]
          exact (eq_of_beq hb).symm
      · rw [if_neg hb] at hpeq
        subst hpeq
        exact hw.2 p0 hp0 e' he'
  · rw [if_neg hany]
    constructor
    · rw [List.map_append]
      rw [List.nodup_append]
      refine ⟨hw.1, by simp, ?_⟩
      intro a ha hb
      simp only [List.map_cons, List.map_nil, List.mem_singleton] at hb
      obtain ⟨p0, hp0, hfst⟩ := List.mem_map.mp ha
      apply hany
      apply List.any_eq_true.mpr
      refine ⟨p0, hp0, ?_⟩
      simp [hfst, hb]
    · intro p hp e' he'
      rcases List.mem_append.mp hp with h1 | h1
      · exact hw.2 p h1 e' he'
      · have : p = (t, [e]) := by simpa using h1
        subst this
        have : e' = e := by simpa using he'
        subst this
        exact he

lemma cacheInsert_mem_elem (c : Cache) (t : String) (e : ElementInfo)
    (x : ElementInfo) (h : ∃ p ∈ cacheInsert c t e, x ∈ p.2) :
    (∃ p ∈ c, x ∈ p.2) ∨ x = e := by
  unfold cacheInsert at h
  by_cases hany : List.any c (fun p => p.1 == t) = true
  · rw [if_pos hany] at h
    obtain ⟨p, hp, hx⟩ := h
    obtain ⟨p0, hp0, hpeq⟩ := List.mem_map.mp hp
    by_cases hb : p0.1 == t
    · rw [if_pos hb] at hpeq
      subst hpeq
      simp only at hx
      rcases List.mem_append.mp hx with h1 | h1
      · exact Or.inl ⟨p0, hp0, h1⟩
      · exact Or.inr (by simpa using h1)
    · rw [if_neg hb] at hpeq
      subst hpeq
      exact Or.inl ⟨p0, hp0, hx⟩
  · rw [if_neg hany] at h
    obtain ⟨p, hp, hx⟩ := h
    rcases List.mem_append.mp hp with h1 | h1
    · exact Or.inl ⟨p, h1, hx⟩
    · have : p = (t, [e]) := by simpa using h1
      subst this
      exact Or.inr (by simpa using hx)

lemma scanFold_wf (nodes : List RawNode) :
    ∀ cache pr, CacheWF cache →
      CacheWF (List.foldl scanStep (cache, pr) nodes).1 := by
  induction nodes with
  | nil => intro cache pr h; exact h
  | cons n rest ih =>
    intro cache pr h
    simp only [List.foldl_cons]
    unfold scanStep
    by_cases hc : List.contains pr n.id = true
    · simp only [hc, if_true]
      exact ih cache pr h
    · simp only [hc, if_false]
      cases hpos : n.pos with
      | none => exact ih cache _ h
      | some p => exact ih _ _ (cacheInsert_wf cache n.type _ h rfl)

lemma scanFold_prov (nodes : List RawNode) :
    ∀ cache pr x, (∃ p ∈ (List.foldl scanStep (cache, pr) nodes).1, x ∈ p.2) →
      (∃ p ∈ cache, x ∈ p.2) ∨
      ∃ n ∈ nodes, n.pos = some x.position ∧ x.element_id = n.id ∧
        x.element_type = n.type ∧ x.text = n.text ∧ x.tooltip = n.tooltip := by
  induction nodes with
  | nil => intro cache pr x h; exact Or.inl h
  | cons n rest ih =>
    intro cache pr x h
    simp only [List.foldl_cons] at h
    unfold scanStep at h
    by_cases hc : List.contains pr n.id = true
    · rw [if_pos hc] at h
      rcases ih cache pr x h with h1 | ⟨n', hn', hrest⟩
      · exact Or.inl h1
      · exact Or.inr ⟨n', List.mem_cons_of_mem n hn', hrest⟩
    · rw [if_neg hc] at h
      cases hpos : n.pos with
      | none =>
        rw [hpos] at h
        rcases ih cache _ x h with h1 | ⟨n', hn', hrest⟩
        · exact Or.inl h1
        · exact Or.inr ⟨n', List.mem_cons_of_mem n hn', hrest⟩
      | some p =>
        rw [hpos] at h
        rcases ih _ _ x h with h1 | ⟨n', hn', hrest⟩
        · rcases cacheInsert_mem_elem _ _ _ x h1 with h2 | h2
          · exact Or.inl h2
          · subst h2
            exact Or.inr ⟨n, List.mem_cons_self n rest, by simp [hpos]⟩
        · exact Or.inr ⟨n', List.mem_cons_of_mem n hn', hrest⟩

lemma nodup_keys_entry_eq (c : Cache)
    (hn : (List.map Prod.fst c).Nodup) :
    ∀ p q', p ∈ c → q' ∈ c → p.1 = q'.1 → p = q' := by
  induction c with
  | nil => intro p q' hp; cases hp
  | cons a cs ih =>
    intro p q' hp hq hk
    simp only [List.map_cons, List.nodup_cons] at hn
    rcases List.mem_cons.mp hp with hpa | hp2
    · rcases List.mem_cons.mp hq with hqa | hq2
      · rw [hpa, hqa]
      · exfalso
        apply hn.1
        rw [hpa] at hk
        rw [hk]
        exact List.mem_map_of_mem Prod.fst hq2
    · rcases List.mem_cons.mp hq with hqa | hq2
      · exfalso
        apply hn.1
        rw [hqa] at hk
        rw [← hk]
        exact List.mem_map_of_mem Prod.fst hp2
      · exact ih hn.2 p q' hp2 hq2 hk

/-! ### Pipeline lemmas -/

lemma cacheGet_nil (t : String) : cacheGet [] t = [] := rfl

lemma foldl_append_cacheGet_nil (ts : List String) :
    ∀ acc : List ElementInfo,
      List.foldl (fun acc t => acc ++ cacheGet [] t) acc ts = acc := by
  induction ts with
  | nil => intro acc; rfl
  | cons t ts ih =>
    intro acc
    rw [List.foldl_cons]
    have hacc : acc ++ cacheGet [] t = acc := by simp [cacheGet_nil]
    rw [hacc]
    exact ih acc

lemma candidatesFor_nil (ts : List String) : candidatesFor [] ts = [] :=
  foldl_append_cacheGet_nil ts []

lemma checkAndRefresh_ok_error (st : FinderState) (wid : String)
    (nodes : List RawNode) :
    (checkAndRefreshCache st (.ok wid nodes)).error = none := by
  simp only [checkAndRefreshCache]
  by_cases h : st.cache_window_id == some wid
  · rw [if_pos h]
  · rw [if_neg h]

lemma checkAndRefresh_ok_gen (st : FinderState) (wid : String)
    (nodes : List RawNode) :
    (checkAndRefreshCache st (.ok wid nodes)).state.cache_window_id = some wid := by
  simp only [checkAndRefreshCache]
  by_cases h : st.cache_window_id == some wid
  · rw [if_pos h]
    exact eq_of_beq h
  · rw [if_neg h]

lemma checkAndRefresh_ok_scanned (st : FinderState) (wid : String)
    (nodes : List RawNode) :
    (checkAndRefreshCache st (.ok wid nodes)).scanned
      = !(st.cache_window_id == some wid) := by
  simp only [checkAndRefreshCache]
  by_cases h : st.cache_window_id == some wid
  · rw [if_pos h, h]
    rfl
  · rw [if_neg h]
    simp only [Bool.not_eq_true] at h
    rw [h]
    rfl

lemma findElementCore_state_scanned (st : FinderState) (q : WindowQuery)
    (loc : String) (tts : Option (List String)) :
    (findElementCore st q loc tts).state = (checkAndRefreshCache st q).state ∧
    (findElementCore st q loc tts).scanned = (checkAndRefreshCache st q).scanned := by
  unfold findElementCore
  cases herr : (checkAndRefreshCache st q).error with
  | some e => simp [herr]
  | none =>
    simp only [herr]
    by_cases h1 : (checkAndRefreshCache st q).state.element_cache.isEmpty
    · simp [h1]
    · simp only [Bool.not_eq_true] at h1
      simp only [h1, Bool.false_eq_true, if_false]
      cases parseLocator loc with
      | valueError m => simp
      | notImplementedError m => simp
      | ok s =>
        simp only
        split <;> simp

lemma findElementCore_ok_strategy (st : FinderState) (q : WindowQuery)
    (loc : String) (tts : Option (List String)) (s : LocatorStrategy)
    (herr : (checkAndRefreshCache st q).error = none)
    (hp : parseLocator loc = .ok s)
    (h1 : (checkAndRefreshCache st q).state.element_cache.isEmpty = false)
    (h2 : (candidatesFor (checkAndRefreshCache st q).state.element_cache
        (tts.getD DEFAULT_TARGET_TYPES)).isEmpty = false) :
    (findElementCore st q loc tts).call
      = .returned (Option.map ElementInfo.element_id
          (dispatchStrategy (checkAndRefreshCache st q).state.element_cache
            (candidatesFor (checkAndRefreshCache st q).state.element_cache
              (tts.getD DEFAULT_TARGET_TYPES)) s)) := by
  unfold findElementCore
  simp only [herr, hp, h1, h2, Bool.false_eq_true, if_false]

lemma findElementCore_emptyCache (st : FinderState) (q : WindowQuery)
    (loc : String) (tts : Option (List String))
    (herr : (checkAndRefreshCache st q).error = none)
    (h1 : (checkAndRefreshCache st q).state.element_cache.isEmpty = true) :
    (findElementCore st q loc tts).call = .returned none ∧
    (findElementCore st q loc tts).log = [.emptyCache] := by
  unfold findElementCore
  simp [herr, h1]

lemma findElementCore_valueError (st : FinderState) (q : WindowQuery)
    (loc : String) (tts : Option (List String)) (m : String)
    (herr : (checkAndRefreshCache st q).error = none)
    (h1 : (checkAndRefreshCache st q).state.element_cache.isEmpty = false)
    (hp : parseLocator loc = .valueError m) :
    (findElementCore st q loc tts).call = .returned none ∧
    (findElementCore st q loc tts).log = [.parseErrorKind m] := by
  unfold findElementCore
  simp [herr, h1, hp]

lemma findElementCore_notImplemented (st : FinderState) (q : WindowQuery)
    (loc : String) (tts : Option (List String)) (m : String)
    (herr : (checkAndRefreshCache st q).error = none)
    (h1 : (checkAndRefreshCache st q).state.element_cache.isEmpty = false)
    (hp : parseLocator loc = .notImplementedError m) :
    (findElementCore st q loc tts).call = .returned none ∧
    (findElementCore st q loc tts).log = [.unsupportedKind m] := by
  unfold findElementCore
  simp [herr, h1, hp]

/-! ### Concrete fixtures used by witnesses and counterexamples -/

def exPosA : Position := { left := 0, top := 0, width := 10, height := 10 }

def exPosB : Position := { left := 20, top := 0, width := 10, height := 10 }

/-- A button whose tooltip (not text) is `"v"`, scanned first. -/
def exNodeA : RawNode :=
  { id := "idA", type := "GuiButton", text := some "x", tooltip := some "v",
    pos := some exPosA }

/-- A button whose text is `"v"`, scanned second. -/
def exNodeB : RawNode :=
  { id := "idB", type := "GuiButton", text := some "v", pos := some exPosB }

def exInfoA : ElementInfo :=
  { element_id := "idA", element_type := "GuiButton", text := some "x",
    tooltip := some "v", position := exPosA }

def exInfoB : ElementInfo :=
  { element_id := "idB", element_type := "GuiButton", text := some "v",
    tooltip := none, position := exPosB }

/-- A label whose text is `"Save"`; the only element of its window. -/
def exNodeLabel : RawNode :=
  { id := "lbl", type := "GuiLabel", text := some "Save", pos := some exPosA }

/-- The "User" label of the spec example, at `(0,0,40,20)`. -/
def exNodeUser : RawNode :=
  { id := "lblUser", type := "GuiLabel", text := some "User",
    pos := some { left := 0, top := 0, width := 40, height := 20 } }

/-- The near text field of the spec example, at `(50,0,100,20)`. -/
def exNodeFld1 : RawNode :=
  { id := "fld1", type := "GuiTextField", text := some "",
    pos := some { left := 50, top := 0, width := 100, height := 20 } }

/-- The far text field of the spec example, at `(200,0,100,20)`. -/
def exNodeFld2 : RawNode :=
  { id := "fld2", type := "GuiTextField", text := some "",
    pos := some { left := 200, top := 0, width := 100, height := 20 } }

def exCache4 : Cache := scanWindowElements [exNodeUser, exNodeFld1, exNodeFld2]

def exCands4 : List ElementInfo := candidatesFor exCache4 DEFAULT_TARGET_TYPES

def exLabUser : ElementInfo :=
  { element_id := "lblUser", element_type := "GuiLabel", text := some "User",
    tooltip := none, position := { left := 0, top := 0, width := 40, height := 20 } }

def exFld1Info : ElementInfo :=
  { element_id := "fld1", element_type := "GuiTextField", text := some "",
    tooltip := none, position := { left := 50, top := 0, width := 100, height := 20 } }

/-! ### Claim theorems -/

/-- C1 counterexample: the cache scanned from `exNodeA, exNodeB` holds
exactly `[exInfoA, exInfoB]`; `exInfoB` has `text = "v"` while `exInfoA`
only has `tooltip = "v"`, yet resolving `"=v"` returns `"idA"` — the
tooltip match on the earlier element outranks the text match on the
later element, contradicting the claim that text equality is checked
against every cached element before any tooltip comparison. -/
theorem C1_counterexample :
    (findElementCore initialState (WindowQuery.ok "wnd[0]" [exNodeA, exNodeB])
        "=v" none).call = CallResult.returned (some "idA") ∧
    allCachedElements (scanWindowElements [exNodeA, exNodeB])
      = [exInfoA, exInfoB] ∧
    exInfoA.element_id = "idA" ∧ exInfoB.element_id = "idB" ∧
    exInfoB.text = some "v" ∧ exInfoA.text = some "x" ∧
    exInfoA.tooltip = some "v" := by
  decide

/-- C1 (amended): resolving a `Content(v)` locator scans the cached
elements once, in scan order, checking each element's text and then its
tooltip before moving on; the returned id is that of the first element
whose text *or* tooltip equals `v`, so a tooltip match on an earlier
element outranks a text match on a later one. -/
theorem C1_content_single_pass (st : FinderState) (wid : String)
    (nodes : List RawNode) (loc : String) (tts : Option (List String))
    (v : String)
    (hp : parseLocator loc = ParseOutcome.ok (LocatorStrategy.content v))
    (h1 : (checkAndRefreshCache st (.ok wid nodes)).state.element_cache.isEmpty
        = false)
    (h2 : (candidatesFor (checkAndRefreshCache st (.ok wid nodes)).state.element_cache
        (tts.getD DEFAULT_TARGET_TYPES)).isEmpty = false) :
    (findElementCore st (.ok wid nodes) loc tts).call
      = CallResult.returned (Option.map ElementInfo.element_id
          (List.find? (fun e => e.text == some v || e.tooltip == some v)
            (allCachedElements
              (checkAndRefreshCache st (.ok wid nodes)).state.element_cache))) := by
  rw [findElementCore_ok_strategy st (.ok wid nodes) loc tts
    (LocatorStrategy.content v) (checkAndRefresh_ok_error st wid nodes) hp h1 h2]
  simp only [dispatchStrategy, resolveContent, contentScan_eq_find?]

/-- C1 witness: the amended characterization applied to the concrete
two-element window. -/
theorem C1_witness :
    (findElementCore initialState (WindowQuery.ok "wnd[0]" [exNodeA, exNodeB])
        "=v" none).call
      = CallResult.returned (Option.map ElementInfo.element_id
          (List.find? (fun e => e.text == some "v" || e.tooltip == some "v")
            (allCachedElements
              (checkAndRefreshCache initialState
                (WindowQuery.ok "wnd[0]" [exNodeA, exNodeB])).state.element_cache))) :=
  C1_content_single_pass initialState "wnd[0]" [exNodeA, exNodeB] "=v" none "v"
    (by decide) (by decide) (by decide)

/-- C2 counterexample: the window holds only a `GuiLabel` with text
`"Save"`. With `allowedTypes = [GuiButton]` (matched by no cached
element) resolving `"=Save"` returns `None`, while with
`allowedTypes = [GuiLabel]` it returns the label's id — the result of a
Content locator does depend on `allowedTypes`, and a matching element
is *not* returned when no cached element's type is allowed. -/
theorem C2_counterexample :
    (findElementCore initialState (WindowQuery.ok "wnd[0]" [exNodeLabel])
        "=Save" (some ["GuiButton"])).call = CallResult.returned none ∧
    (findElementCore initialState (WindowQuery.ok "wnd[0]" [exNodeLabel])
        "=Save" (some ["GuiLabel"])).call = CallResult.returned (some "lbl") ∧
    Option.map ElementInfo.element_id
      (resolveContent (scanWindowElements [exNodeLabel]) "Save") = some "lbl" := by
  decide

/-- C2 (amended): the Content scan itself ignores `allowedTypes`, but
`find_element` returns `None` early when no cached element's type
belongs to `allowedTypes`; hence the result of resolving a Content
locator is independent of `allowedTypes` only between allowed sets
whose candidate lists over the refreshed cache are both non-empty. -/
theorem C2_content_independent (st : FinderState) (q : WindowQuery)
    (loc : String) (ts1 ts2 : Option (List String)) (v : String)
    (hp : parseLocator loc = ParseOutcome.ok (LocatorStrategy.content v))
    (h1 : candidatesFor (checkAndRefreshCache st q).state.element_cache
        (ts1.getD DEFAULT_TARGET_TYPES) ≠ [])
    (h2 : candidatesFor (checkAndRefreshCache st q).state.element_cache
        (ts2.getD DEFAULT_TARGET_TYPES) ≠ []) :
    (findElementCore st q loc ts1).call = (findElementCore st q loc ts2).call := by
  cases q with
  | fail err =>
    exfalso
    apply h1
    have : (checkAndRefreshCache st (.fail err)).state.element_cache = [] := rfl
    rw [this]
    exact candidatesFor_nil _
  | ok wid nodes =>
    have herr := checkAndRefresh_ok_error st wid nodes
    have hne : (checkAndRefreshCache st (.ok wid nodes)).state.element_cache.isEmpty
        = false := by
      cases hc : (checkAndRefreshCache st (.ok wid nodes)).state.element_cache with
      | nil =>
        exfalso
        apply h1
        rw [hc]
        exact candidatesFor_nil _
      | cons a l => rfl
    have hne1 : (candidatesFor (checkAndRefreshCache st (.ok wid nodes)).state.element_cache
        (ts1.getD DEFAULT_TARGET_TYPES)).isEmpty = false := by
      cases hc : candidatesFor (checkAndRefreshCache st (.ok wid nodes)).state.element_cache
          (ts1.getD DEFAULT_TARGET_TYPES) with
      | nil => exact absurd hc h1
      | cons a l => rfl
    have hne2 : (candidatesFor (checkAndRefreshCache st (.ok wid nodes)).state.element_cache
        (ts2.getD DEFAULT_TARGET_TYPES)).isEmpty = false := by
      cases hc : candidatesFor (checkAndRefreshCache st (.ok wid nodes)).state.element_cache
          (ts2.getD DEFAULT_TARGET_TYPES) with
      | nil => exact absurd hc h2
      | cons a l => rfl
    rw [findElementCore_ok_strategy st (.ok wid nodes) loc ts1
      (LocatorStrategy.content v) herr hp hne hne1]
    rw [findElementCore_ok_strategy st (.ok wid nodes) loc ts2
      (LocatorStrategy.content v) herr hp hne hne2]
    rfl

/-- C2 witness: on the one-label window, two different allowed sets
with non-empty candidate lists give the same Content result. -/
theorem C2_witness :
    (findElementCore initialState (WindowQuery.ok "wnd[0]" [exNodeLabel])
        "=Save" (some ["GuiLabel"])).call
      = (findElementCore initialState (WindowQuery.ok "wnd[0]" [exNodeLabel])
        "=Save" (some ["GuiLabel", "GuiButton"])).call :=
  C2_content_independent initialState (WindowQuery.ok "wnd[0]" [exNodeLabel])
    "=Save" (some ["GuiLabel"]) (some ["GuiLabel", "GuiButton"]) "Save"
    (by decide) (by decide) (by decide)

/-- C3: the parser maps each tabulated input to the stated
classification, the unsupported kind is distinct from the parse-error
kind, classification follows the priority order `=`, then `>>`, then
`@`, then plain label (witnessed by inputs containing several markers),
and the input is trimmed before classification (parsing is invariant
under pre-stripping). -/
theorem C3_parse_table :
    parseLocator "=Save" = ParseOutcome.ok (LocatorStrategy.content "Save") ∧
    parseLocator "User" = ParseOutcome.ok (LocatorStrategy.hLabel "User") ∧
    parseLocator "@ Password"
      = ParseOutcome.ok (LocatorStrategy.vLabel "Password") ∧
    parseLocator "User @ Password"
      = ParseOutcome.ok (LocatorStrategy.hLabelVLabel "User" "Password") ∧
    parseLocator "A>>B"
      = ParseOutcome.ok (LocatorStrategy.hLabelHLabel "A" "B") ∧
    (parseLocator "5 @ 7").isParseErr = true ∧
    (parseLocator "").isParseErr = true ∧
    (parseLocator "3 @ label").isUnsupported = true ∧
    (parseLocator "3 @ label").isParseErr = false ∧
    parseLocator "=a>>b @ c"
      = ParseOutcome.ok (LocatorStrategy.content "a>>b @ c") ∧
    parseLocator "a>>b@c"
      = ParseOutcome.ok (LocatorStrategy.hLabelHLabel "a" "b@c") ∧
    parseLocator "  User  " = ParseOutcome.ok (LocatorStrategy.hLabel "User") ∧
    (∀ s : String, parseLocator (pyStrip s) = parseLocator s) := by
  refine ⟨by decide, by decide, by decide, by decide, by decide, by decide,
    by decide, by decide, by decide, by decide, by decide, by decide, ?_⟩
  exact parseLocator_pyStrip

/-- C4: resolving `HLabel(label)` picks the first label-type element
(in the label-candidate enumeration) whose text equals the label,
filters the typed candidates to those horizontally aligned with and
right of it, and returns the candidate minimizing
`candidate.left − label.right`, ties resolved in favor of the first
candidate encountered; a missing label or an empty filtered list gives
`NotFound`. -/
theorem C4_hlabel_nearest (cache : Cache) (cands : List ElementInfo)
    (label : String) (lab : ElementInfo)
    (hlab : findLabelElement cache label = some lab) :
    (findLabelElement cache label
        = List.find? (fun l => l.text == some label) (labelCandidates cache)) ∧
    (∀ c2 cs2 l2, findLabelElement c2 l2 = none →
        resolveHLabel c2 cs2 l2 = none) ∧
    (resolveHLabel cache cands label = none
        ↔ List.filter (hCandidate lab) cands = []) ∧
    (∀ r, resolveHLabel cache cands label = some r →
        r ∈ List.filter (hCandidate lab) cands ∧
        hCandidate lab r = true ∧
        (∀ x ∈ List.filter (hCandidate lab) cands, hDist lab r ≤ hDist lab x) ∧
        ∃ pre post, List.filter (hCandidate lab) cands = pre ++ r :: post ∧
          ∀ x ∈ pre, hDist lab r < hDist lab x) := by
  refine ⟨findLabelLoop_eq_find? label (labelCandidates cache), ?_, ?_, ?_⟩
  · intro c2 cs2 l2 hnone
    unfold resolveHLabel
    rw [hnone]
  · unfold resolveHLabel
    rw [hlab]
    exact closestBy_none_iff (hCandidate lab) (hDist lab) cands
  · intro r hr
    unfold resolveHLabel at hr
    rw [hlab] at hr
    change closestBy (hCandidate lab) (hDist lab) cands = some r at hr
    cases hf : List.filter (hCandidate lab) cands with
    | nil =>
      rw [(closestBy_none_iff (hCandidate lab) (hDist lab) cands).mpr hf] at hr
      cases hr
    | cons b rest =>
      rw [closestBy_of_filter_cons (hCandidate lab) (hDist lab) cands b rest hf]
        at hr
      have hrsel : r = selectFrom (hDist lab) b rest := by
        injection hr with h
        exact h.symm
      subst hrsel
      refine ⟨?_, ?_, ?_, ?_⟩
      · exact selectFrom_mem (hDist lab) rest b
      · have hmem : selectFrom (hDist lab) b rest
            ∈ List.filter (hCandidate lab) cands := by
          rw [hf]
          exact selectFrom_mem (hDist lab) rest b
        exact (List.mem_filter.mp hmem).2
      · intro x hx
        exact selectFrom_le (hDist lab) rest b x hx
      · exact selectFrom_split (hDist lab) rest b

/-- C4 witness: the spec example — label "User" at `(0,0,40,20)`,
text fields at `(50,0,100,20)` and `(200,0,100,20)` — resolves to the
nearer field, which indeed passes the alignment-and-right-of filter. -/
theorem C4_witness :
    findLabelElement exCache4 "User" = some exLabUser ∧
    resolveHLabel exCache4 exCands4 "User" = some exFld1Info ∧
    exFld1Info ∈ List.filter (hCandidate exLabUser) exCands4 := by
  have h := C4_hlabel_nearest exCache4 exCands4 "User" exLabUser (by decide)
  exact ⟨by decide, by decide, (h.2.2.2 exFld1Info (by decide)).1⟩

/-- C5: a resolve call against an `ok` window query scans iff the
active window id differs from the cached generation; afterwards the
generation equals the active id; hence starting from a mismatched
generation, two consecutive resolves with the same window id scan
exactly once (first yes, second no), while a changed id before the
second call scans exactly once more. -/
theorem C5_scan_per_generation (st : FinderState) (wid wid2 : String)
    (nodes nodes2 : List RawNode) (loc loc2 : String)
    (tts tts2 : Option (List String))
    (h : st.cache_window_id ≠ some wid) :
    ((findElementCore st (.ok wid nodes) loc tts).scanned
        = !(st.cache_window_id == some wid)) ∧
    ((findElementCore st (.ok wid nodes) loc tts).state.cache_window_id
        = some wid) ∧
    ((findElementCore st (.ok wid nodes) loc tts).scanned = true) ∧
    ((findElementCore (findElementCore st (.ok wid nodes) loc tts).state
        (.ok wid nodes2) loc2 tts2).scanned = false) ∧
    (wid2 ≠ wid →
      (findElementCore (findElementCore st (.ok wid nodes) loc tts).state
        (.ok wid2 nodes2) loc2 tts2).scanned = true) := by
  have hs1 := findElementCore_state_scanned st (.ok wid nodes) loc tts
  have hgen : (findElementCore st (.ok wid nodes) loc tts).state.cache_window_id
      = some wid := by
    rw [hs1.1]
    exact checkAndRefresh_ok_gen st wid nodes
  have hb : (st.cache_window_id == some wid) = false := by
    exact beq_eq_false_iff_ne.mpr h
  refine ⟨?_, hgen, ?_, ?_, ?_⟩
  · rw [hs1.2]
    exact checkAndRefresh_ok_scanned st wid nodes
  · rw [hs1.2, checkAndRefresh_ok_scanned st wid nodes, hb]
    rfl
  · have hs2 := findElementCore_state_scanned
      (findElementCore st (.ok wid nodes) loc tts).state (.ok wid nodes2)
      loc2 tts2
    rw [hs2.2, checkAndRefresh_ok_scanned _ wid nodes2, hgen]
    simp
  · intro hne
    have hs2 := findElementCore_state_scanned
      (findElementCore st (.ok wid nodes) loc tts).state (.ok wid2 nodes2)
      loc2 tts2
    rw [hs2.2, checkAndRefresh_ok_scanned _ wid2 nodes2, hgen]
    have : (some wid == some wid2) = false := by
      apply beq_eq_false_iff_ne.mpr
      intro hc
      exact hne (by injection hc with h2; exact h2.symm)
    rw [this]
    rfl

/-- C5 witness: a fresh finder scans on the first resolve, not on the
second with the same window, and again after a window change. -/
theorem C5_witness :
    ((findElementCore initialState (.ok "wnd[0]" [exNodeA]) "=v" none).scanned
        = true) ∧
    ((findElementCore
        (findElementCore initialState (.ok "wnd[0]" [exNodeA]) "=v" none).state
        (.ok "wnd[0]" [exNodeA]) "=v" none).scanned = false) ∧
    ((findElementCore
        (findElementCore initialState (.ok "wnd[0]" [exNodeA]) "=v" none).state
        (.ok "wnd[1]" [exNodeA]) "=v" none).scanned = true) := by
  have h := C5_scan_per_generation initialState "wnd[0]" "wnd[1]" [exNodeA]
    [exNodeA] "=v" "=v" none none (by decide)
  exact ⟨h.2.2.1, h.2.2.2.1, h.2.2.2.2 (by decide)⟩

/-- C6: when parsing the locator raises `ValueError` (parse error) or
`NotImplementedError` (unsupported locator), `find_element` returns
`None` and raises nothing to the caller; the two negative kinds stay
distinguishable — distinct `ParseOutcome` constructors, logged as
distinct `LogEvent` kinds when the cache is non-empty. -/
theorem C6_parse_errors_not_found (st : FinderState) (wid : String)
    (nodes : List RawNode) (loc : String) (tts : Option (List String))
    (h : (parseLocator loc).isParseErr = true
        ∨ (parseLocator loc).isUnsupported = true) :
    ((findElementCore st (.ok wid nodes) loc tts).call
        = CallResult.returned none) ∧
    (∀ e, (findElementCore st (.ok wid nodes) loc tts).call
        ≠ CallResult.raised e) ∧
    (∀ m m2, ParseOutcome.valueError m ≠ ParseOutcome.notImplementedError m2) ∧
    (∀ m m2, LogEvent.parseErrorKind m ≠ LogEvent.unsupportedKind m2) ∧
    (∀ m, parseLocator loc = ParseOutcome.valueError m →
        (checkAndRefreshCache st (.ok wid nodes)).state.element_cache.isEmpty
          = false →
        (findElementCore st (.ok wid nodes) loc tts).log
          = [LogEvent.parseErrorKind m]) ∧
    (∀ m, parseLocator loc = ParseOutcome.notImplementedError m →
        (checkAndRefreshCache st (.ok wid nodes)).state.element_cache.isEmpty
          = false →
        (findElementCore st (.ok wid nodes) loc tts).log
          = [LogEvent.unsupportedKind m]) := by
  have herr := checkAndRefresh_ok_error st wid nodes
  have hret : (findElementCore st (.ok wid nodes) loc tts).call
      = CallResult.returned none := by
    by_cases hemp :
        (checkAndRefreshCache st (.ok wid nodes)).state.element_cache.isEmpty
    · exact (findElementCore_emptyCache st _ loc tts herr hemp).1
    · rw [Bool.not_eq_true] at hemp
      cases hpl : parseLocator loc with
      | ok s =>
        rw [hpl] at h
        rcases h with h | h <;> simp [ParseOutcome.isParseErr,
          ParseOutcome.isUnsupported] at h
      | valueError m =>
        exact (findElementCore_valueError st _ loc tts m herr hemp hpl).1
      | notImplementedError m =>
        exact (findElementCore_notImplemented st _ loc tts m herr hemp hpl).1
  refine ⟨hret, ?_, ?_, ?_, ?_, ?_⟩
  · intro e hcontra
    rw [hret] at hcontra
    cases hcontra
  · intro m m2 hcontra
    cases hcontra
  · intro m m2 hcontra
    cases hcontra
  · intro m hpl hemp
    exact (findElementCore_valueError st _ loc tts m herr hemp hpl).2
  · intro m hpl hemp
    exact (findElementCore_notImplemented st _ loc tts m herr hemp hpl).2

/-- C6 witness: the ambiguous locator `"5 @ 7"` and the unsupported
locator `"3 @ label"` both return `None` on a non-empty window, with
their distinct log kinds. -/
theorem C6_witness :
    ((findElementCore initialState (.ok "wnd[0]" [exNodeA]) "5 @ 7" none).call
        = CallResult.returned none) ∧
    ((findElementCore initialState (.ok "wnd[0]" [exNodeA]) "5 @ 7" none).log
        = [LogEvent.parseErrorKind "Invalid locator format with at"]) := by
  have h := C6_parse_errors_not_found initialState "wnd[0]" [exNodeA] "5 @ 7"
    none (Or.inl (by decide))
  exact ⟨h.1, h.2.2.2.2.1 "Invalid locator format with at" (by decide) (by decide)⟩

/-- C7: when obtaining the active window fails during refresh, the
resolve call raises a `SapGuiComException` (rather than returning
`None`), the cache is cleared to the empty index with the sentinel
generation before the error propagates, no scan is attempted (no
internal retry), and the raised exception carries the original
transport failure unmodified as its cause. -/
theorem C7_transport_error (st : FinderState) (err : String) (loc : String)
    (tts : Option (List String)) :
    ((findElementCore st (.fail err) loc tts).call
        = CallResult.raised
          { message := "Error accessing ActiveWindow: " ++ err, cause := err }) ∧
    ((findElementCore st (.fail err) loc tts).call
        ≠ CallResult.returned none) ∧
    ((findElementCore st (.fail err) loc tts).state.element_cache = []) ∧
    ((findElementCore st (.fail err) loc tts).state.cache_window_id = none) ∧
    ((findElementCore st (.fail err) loc tts).scanned = false) := by
  refine ⟨rfl, ?_, rfl, rfl, rfl⟩
  intro hcontra
  cases hcontra

/-- C7 witness: the general transport-failure behavior at a concrete
state, error and locator. -/
theorem C7_witness :
    ((findElementCore initialState (.fail "RPC server unavailable") "User"
        none).call
      = CallResult.raised
        { message := "Error accessing ActiveWindow: RPC server unavailable",
          cause := "RPC server unavailable" }) ∧
    ((findElementCore initialState (.fail "RPC server unavailable") "User"
        none).state.element_cache = []) := by
  have h := C7_transport_error initialState "RPC server unavailable" "User" none
  exact ⟨h.1, h.2.2.1⟩

/-- C8: both alignment predicates are symmetric in their two `Position`
arguments, for every tolerance. -/
theorem C8_alignment_symm (a b : Position) (t : Int) :
    a.is_horizontally_aligned_with b t = b.is_horizontally_aligned_with a t ∧
    a.is_vertically_aligned_with b t = b.is_vertically_aligned_with a t := by
  constructor <;>
    simp [Position.is_horizontally_aligned_with,
      Position.is_vertically_aligned_with, abs_sub_comm]

/-- C9: when the refreshed cache holds no elements, `find_element`
returns `None` for every locator string — the empty-cache check runs
before parsing, so the only log event is the empty-cache warning and no
parse-error or unsupported-locator diagnostic is produced, even for
malformed locators. -/
theorem C9_empty_cache_short_circuit (st : FinderState) (wid : String)
    (nodes : List RawNode) (loc : String) (tts : Option (List String))
    (h : (checkAndRefreshCache st (.ok wid nodes)).state.element_cache = []) :
    ((findElementCore st (.ok wid nodes) loc tts).call
        = CallResult.returned none) ∧
    ((findElementCore st (.ok wid nodes) loc tts).log
        = [LogEvent.emptyCache]) := by
  apply findElementCore_emptyCache st (.ok wid nodes) loc tts
    (checkAndRefresh_ok_error st wid nodes)
  rw [h]
  rfl

/-- C9 witness: on an empty window even the malformed locator `"5 @ 7"`
yields `None` with only the empty-cache event logged. -/
theorem C9_witness :
    ((findElementCore initialState (.ok "wnd[0]" []) "5 @ 7" none).call
        = CallResult.returned none) ∧
    ((findElementCore initialState (.ok "wnd[0]" []) "5 @ 7" none).log
        = [LogEvent.emptyCache]) :=
  C9_empty_cache_short_circuit initialState "wnd[0]" [] "5 @ 7" none (by decide)

/-- C10: any scanned cache is well-partitioned — bucket keys are
distinct and every element lies in the bucket of its own type, so it
appears in exactly one bucket; every stored element originates from a
visited node whose bounding box was read (`pos = some _`), carrying
that node's position; `clear` restores the empty index with the
sentinel generation; and the invariant is preserved by the refresh that
every resolve performs (a resolve changes the state only through that
refresh). -/
theorem C10_cache_partition (nodes : List RawNode) (st : FinderState)
    (q : WindowQuery) (hst : CacheWF st.element_cache) :
    CacheWF (scanWindowElements nodes) ∧
    (∀ p ∈ scanWindowElements nodes, ∀ e ∈ p.2,
        ∃ n ∈ nodes, n.pos = some e.position ∧ e.element_id = n.id ∧
          e.element_type = n.type ∧ e.text = n.text ∧ e.tooltip = n.tooltip) ∧
    (∀ c : Cache, CacheWF c → ∀ p p2, p ∈ c → p2 ∈ c →
        ∀ e, e ∈ p.2 → e ∈ p2.2 → p = p2) ∧
    (clearCache st = initialState) ∧
    (initialState.element_cache = [] ∧ initialState.cache_window_id = none) ∧
    CacheWF (checkAndRefreshCache st q).state.element_cache ∧
    (∀ loc tts, (findElementCore st q loc tts).state
        = (checkAndRefreshCache st q).state) := by
  have hwfnil : CacheWF ([] : Cache) := ⟨List.nodup_nil, by simp⟩
  refine ⟨scanFold_wf nodes [] [] hwfnil, ?_, ?_, rfl, ⟨rfl, rfl⟩, ?_, ?_⟩
  · intro p hp e he
    rcases scanFold_prov nodes [] [] e ⟨p, hp, he⟩ with ⟨p0, hp0, _⟩ | hprov
    · cases hp0
    · exact hprov
  · intro c hc p p2 hp hp2 e hep hep2
    apply nodup_keys_entry_eq c hc.1 p p2 hp hp2
    rw [← hc.2 p hp e hep, ← hc.2 p2 hp2 e hep2]
  · cases q with
    | fail err => exact hwfnil
    | ok wid nodes2 =>
      simp only [checkAndRefreshCache]
      by_cases hb : st.cache_window_id == some wid
      · rw [if_pos hb]
        exact hst
      · rw [if_neg hb]
        exact scanFold_wf nodes2 [] [] hwfnil
  · intro loc tts
    exact (findElementCore_state_scanned st q loc tts).1

/-- C10 witness: the invariant at the concrete two-button scan, and
preservation across a concrete refresh from the fresh state. -/
theorem C10_witness :
    CacheWF (scanWindowElements [exNodeA, exNodeB]) ∧
    clearCache initialState = initialState ∧
    CacheWF (checkAndRefreshCache initialState
      (.ok "wnd[0]" [exNodeA, exNodeB])).state.element_cache := by
  have h := C10_cache_partition [exNodeA, exNodeB] initialState
    (.ok "wnd[0]" [exNodeA, exNodeB]) ⟨List.nodup_nil, by simp [initialState]⟩
  exact ⟨h.1, h.2.2.2.1, h.2.2.2.2.2.1⟩

end SapScript
